import Mathlib

/-!
Verification development for the loco-mcp translation-management adapter.

The source is a thin client (`LocoClient` in `src/loco-client.ts`) that maps
typed operations onto HTTP requests against the Loco REST API, plus a tool
surface (`src/index.ts`) that forwards tool invocations to the client.

We embed the request-construction logic shallowly: every operation becomes a
Lean function from its parameters to a `Request` record describing exactly the
outbound HTTP request the source would issue (method, URL, headers, serialized
body).  The platform primitives the source relies on — `encodeURIComponent`,
`decodeURIComponent`, `URLSearchParams` serialization and `JSON.stringify` —
are modelled from their ECMAScript/WHATWG specifications, byte-for-byte on the
character classes involved.  Response decoding (`JSON.parse` + error throwing)
is embedded as `handleResponse`, parameterized by an abstract parser standing
for `JSON.parse`.
-/

/-! ## UTF-8 and percent-encoding primitives -/

/-- UTF-8 encoding of a single scalar value, as a list of byte values.
Mirrors the standard UTF-8 encoder used by `encodeURIComponent`. -/
def utf8Bytes (c : Char) : List Nat :=
  let n := c.toNat
  if n < 0x80 then [n]
  else if n < 0x800 then [0xC0 + n / 64, 0x80 + n % 64]
  else if n < 0x10000 then [0xE0 + n / 4096, 0x80 + (n / 64) % 64, 0x80 + n % 64]
  else [0xF0 + n / 262144, 0x80 + (n / 4096) % 64, 0x80 + (n / 64) % 64, 0x80 + n % 64]

/-- UTF-8 encoding of a list of characters (byte stream of the string). -/
def utf8EncodeList : List Char → List Nat
  | [] => []
  | c :: cs => utf8Bytes c ++ utf8EncodeList cs

/-- Uppercase hexadecimal digit, as used by `encodeURIComponent` escapes. -/
def hexDigit (n : Nat) : Char :=
  if n < 10 then Char.ofNat (48 + n) else Char.ofNat (55 + n)

/-- Value of a hexadecimal digit character (upper or lower case). -/
def hexVal (c : Char) : Option Nat :=
  let n := c.toNat
  if 48 ≤ n ∧ n ≤ 57 then some (n - 48)
  else if 65 ≤ n ∧ n ≤ 70 then some (n - 55)
  else if 97 ≤ n ∧ n ≤ 102 then some (n - 87)
  else none

/-- Percent-escape of one byte: `%XY` with uppercase hex digits. -/
def pctByte (b : Nat) : List Char :=
  ['%', hexDigit (b / 16), hexDigit (b % 16)]

/-- Percent-escape of a byte sequence. -/
def pctEscapeBytes : List Nat → List Char
  | [] => []
  | b :: bs => pctByte b ++ pctEscapeBytes bs

/-- The `uriUnescaped` set of ECMAScript `encodeURIComponent`:
ASCII alphanumerics and `- _ . ! ~ * ' ( )` (written by code point). -/
def isUriUnescaped (c : Char) : Bool :=
  let n := c.toNat
  (65 ≤ n ∧ n ≤ 90) ∨ (97 ≤ n ∧ n ≤ 122) ∨ (48 ≤ n ∧ n ≤ 57) ∨
    n = 45 ∨ n = 95 ∨ n = 46 ∨ n = 33 ∨ n = 126 ∨ n = 42 ∨ n = 39 ∨ n = 40 ∨ n = 41

/-- `encodeURIComponent`, character by character: unescaped characters pass
through, every other character contributes the percent-escapes of its UTF-8
bytes. -/
def encodeURIComponentList : List Char → List Char
  | [] => []
  | c :: cs =>
    (if isUriUnescaped c then [c] else pctEscapeBytes (utf8Bytes c)) ++
      encodeURIComponentList cs

/-- ECMAScript `encodeURIComponent` on strings. -/
def encodeURIComponent (s : String) : String :=
  ⟨encodeURIComponentList s.data⟩

/-- First phase of `decodeURIComponent`: turn the character stream into a byte
stream, replacing each `%XY` escape by its byte; a malformed escape is an
error (`none`).  Characters outside escapes contribute their UTF-8 bytes. -/
def pctDecodeBytes : List Char → Option (List Nat)
  | [] => some []
  | c :: cs =>
    if c = '%' then
      match cs with
      | c1 :: c2 :: rest =>
        match hexVal c1, hexVal c2, pctDecodeBytes rest with
        | some h, some l, some bs => some ((16 * h + l) :: bs)
        | _, _, _ => none
      | _ => none
    else
      match pctDecodeBytes cs with
      | some bs => some (utf8Bytes c ++ bs)
      | none => none

/-- UTF-8 decoder on byte lists, as a byte-at-a-time automaton.  The state
`none` expects a lead byte; `some (acc, k, lo)` holds the accumulated scalar
value, the number of continuation bytes still expected, and the least scalar
value a well-formed sequence of this length may produce (overlong-encoding
check).  Truncated sequences, bad lead or continuation bytes, overlong
encodings, surrogates and values above `0x10FFFF` are rejected, as
`decodeURIComponent` rejects them. -/
def utf8DecodeLoop : Option (Nat × Nat × Nat) → List Nat → Option (List Char)
  | none, [] => some []
  | some _, [] => none
  | none, b :: bs =>
    if b < 0x80 then (utf8DecodeLoop none bs).map (fun l => Char.ofNat b :: l)
    else if b < 0xC2 then none
    else if b < 0xE0 then utf8DecodeLoop (some (b - 0xC0, 1, 0x80)) bs
    else if b < 0xF0 then utf8DecodeLoop (some (b - 0xE0, 2, 0x800)) bs
    else if b < 0xF5 then utf8DecodeLoop (some (b - 0xF0, 3, 0x10000)) bs
    else none
  | some (acc, k, lo), b :: bs =>
    if 0x80 ≤ b ∧ b < 0xC0 then
      if k ≤ 1 then
        if acc * 64 + (b - 0x80) < lo ∨
            (0xD800 ≤ acc * 64 + (b - 0x80) ∧ acc * 64 + (b - 0x80) ≤ 0xDFFF) ∨
            0x110000 ≤ acc * 64 + (b - 0x80) then none
        else (utf8DecodeLoop none bs).map (fun l => Char.ofNat (acc * 64 + (b - 0x80)) :: l)
      else utf8DecodeLoop (some (acc * 64 + (b - 0x80), k - 1, lo)) bs
    else none

/-- UTF-8 decoding of a whole byte list. -/
def utf8Decode (l : List Nat) : Option (List Char) :=
  utf8DecodeLoop none l

/-- ECMAScript `decodeURIComponent`: percent-unescape to bytes, then decode
the byte stream as UTF-8. -/
def decodeURIComponent (s : String) : Option String :=
  match pctDecodeBytes s.data with
  | some bs =>
    match utf8Decode bs with
    | some l => some ⟨l⟩
    | none => none
  | none => none

/-! ## application/x-www-form-urlencoded serialization (URLSearchParams) -/

/-- Characters `URLSearchParams` serializes without escaping: ASCII
alphanumerics and `* - . _` (the `application/x-www-form-urlencoded`
percent-encode set complement). -/
def isFormUnescaped (c : Char) : Bool :=
  let n := c.toNat
  (48 ≤ n ∧ n ≤ 57) ∨ (65 ≤ n ∧ n ≤ 90) ∨ (97 ≤ n ∧ n ≤ 122) ∨
    n = 42 ∨ n = 45 ∨ n = 46 ∨ n = 95

/-- Form-urlencoded escape of one character: space becomes `+`, unescaped
characters pass through, everything else is percent-escaped byte-wise. -/
def formEncodeChar (c : Char) : List Char :=
  if c = ' ' then ['+']
  else if isFormUnescaped c then [c]
  else pctEscapeBytes (utf8Bytes c)

/-- Form-urlencoded escape of a character list. -/
def formEncodeList : List Char → List Char
  | [] => []
  | c :: cs => formEncodeChar c ++ formEncodeList cs

/-- Form-urlencoded escape of a string. -/
def formEncodeStr (s : String) : String :=
  ⟨formEncodeList s.data⟩

/-- `URLSearchParams.toString()`: `k1=v1&k2=v2&...` with keys and values
form-urlencoded. -/
def formSerialize (ps : List (String × String)) : String :=
  String.intercalate "&" (ps.map fun p => formEncodeStr p.1 ++ "=" ++ formEncodeStr p.2)

/-! ## JSON.stringify (for the JSON-encoded request bodies) -/

/-- `JSON.stringify` escape of one character inside a string literal. -/
def jsonEscapeChar (c : Char) : List Char :=
  if c = '"' then ['\\', '"']
  else if c = '\\' then ['\\', '\\']
  else if c = Char.ofNat 8 then ['\\', 'b']
  else if c = Char.ofNat 9 then ['\\', 't']
  else if c = Char.ofNat 10 then ['\\', 'n']
  else if c = Char.ofNat 12 then ['\\', 'f']
  else if c = Char.ofNat 13 then ['\\', 'r']
  else if c.toNat < 32 then
    ['\\', 'u', '0', '0', hexDigit (c.toNat / 16), hexDigit (c.toNat % 16)]
  else [c]

/-- `JSON.stringify` escape of a character list. -/
def jsonEscapeList : List Char → List Char
  | [] => []
  | c :: cs => jsonEscapeChar c ++ jsonEscapeList cs

/-- `JSON.stringify` of a string value (quoted, escaped). -/
def jsonStringifyString (s : String) : String :=
  "\"" ++ String.mk (jsonEscapeList s.data) ++ "\""

/-- `JSON.stringify` of an object whose values are strings or `undefined`;
`undefined`-valued keys are dropped, as `JSON.stringify` drops them. -/
def jsonStringifyObj (fields : List (String × Option String)) : String :=
  "\x7b" ++
    String.intercalate ","
      ((fields.filterMap fun kv => kv.2.map fun v => (kv.1, v)).map
        fun p => jsonStringifyString p.1 ++ ":" ++ jsonStringifyString p.2) ++
    "\x7d"

/-! ## The request model (`LocoClient.request` in `src/loco-client.ts`) -/

/-- The values the client passes as the `body` argument of `request`: either a
raw string (translation text) or a record of possibly-`undefined` string
fields, kept in the insertion order of the source object literal. -/
inductive BodyValue where
  | str (s : String)
  | obj (fields : List (String × Option String))
deriving DecidableEq, Repr

/-- The fields of a record body that are actually defined, in order.  This is
the `Object.entries` loop of `request`, which appends a key only when
`value !== undefined`. -/
def definedFields : BodyValue → List (String × String)
  | .str _ => []
  | .obj fields => fields.filterMap fun kv => kv.2.map fun v => (kv.1, v)

/-- Body serialization of `request`, by declared content type.  The
`text/plain` branch uses the body as a raw string (the source only ever passes
a string there); the form branch serializes the defined fields via
`URLSearchParams`; the default branch is `JSON.stringify`. -/
def serializeBody (contentType : String) (b : BodyValue) : String :=
  if contentType = "text/plain" then
    match b with
    | .str s => s
    | .obj _ => ""
  else if contentType = "application/x-www-form-urlencoded" then
    formSerialize (definedFields b)
  else
    match b with
    | .str s => jsonStringifyString s
    | .obj fields => jsonStringifyObj fields

/-- An outbound HTTP request as built by `LocoClient.request`. -/
structure Request where
  method : String
  url : String
  headers : List (String × String)
  body : Option String
deriving DecidableEq, Repr

/-- Base URL of the remote API (`BASE_URL` in the source). -/
def BASE_URL : String := "https://localise.biz/api"

/-- The `Content-Type` header value chosen by `request` when a body is
present: `text/plain` and form encoding when declared, `application/json`
otherwise. -/
def contentTypeHeader (contentType : String) : String :=
  if contentType = "text/plain" then "text/plain"
  else if contentType = "application/x-www-form-urlencoded" then
    "application/x-www-form-urlencoded"
  else "application/json"

namespace LocoClient

/-- `LocoClient.request`: builds the URL from the base URL and endpoint, sets
the `Authorization: Loco <apiKey>` header, and, when a body is present, the
matching `Content-Type` header and the serialized body.  (The tool surface
always constructs the client with the default base URL, which we therefore fix
to `BASE_URL`; the response side is modelled separately by `handleResponse`.) -/
def request (apiKey : String) (method : String) (endpoint : String)
    (body : Option BodyValue) (contentType : String) : Request :=
  { method := method
    url := BASE_URL ++ endpoint
    headers :=
      ("Authorization", "Loco " ++ apiKey) ::
        (match body with
         | none => []
         | some _ => [("Content-Type", contentTypeHeader contentType)])
    body := body.map (serializeBody contentType) }

end LocoClient

/-! ## Client operations (`src/loco-client.ts`) -/

/-- The closed content-type enumeration of asset creation/update
(`"text" | "html" | "xml"` in the source). -/
inductive AssetType where
  | text
  | html
  | xml
deriving DecidableEq, Repr

/-- The string value of an `AssetType`, as it appears in request bodies. -/
def AssetType.toStr : AssetType → String
  | .text => "text"
  | .html => "html"
  | .xml => "xml"

/-- Parameters of `LocoClient.createAsset`, all optional, in the field order
of the source's parameter type. -/
structure CreateAssetParams where
  id : Option String
  text : Option String
  type : Option AssetType
  context : Option String
  notes : Option String
deriving DecidableEq, Repr

/-- The record literal `createAsset` passes as the request body, in insertion
order. -/
def createAssetFields (p : CreateAssetParams) : List (String × Option String) :=
  [("id", p.id), ("text", p.text), ("type", p.type.map AssetType.toStr),
    ("context", p.context), ("notes", p.notes)]

/-- Parameters of `LocoClient.updateAsset` (no `text` field), in source
order. -/
structure UpdateAssetParams where
  id : Option String
  type : Option AssetType
  context : Option String
  notes : Option String
deriving DecidableEq, Repr

/-- The record literal `updateAsset` passes as the request body. -/
def updateAssetFields (p : UpdateAssetParams) : List (String × Option String) :=
  [("id", p.id), ("type", p.type.map AssetType.toStr),
    ("context", p.context), ("notes", p.notes)]

namespace LocoClient

/-- `getLocales`: `GET /locales`, no body. -/
def getLocales (apiKey : String) : Request :=
  request apiKey "GET" "/locales" none "application/json"

/-- The endpoint `listAssets` computes: the conditional
`filter ? .. : "/assets"` tests JavaScript truthiness, so both an absent
filter and an empty-string filter take the bare `"/assets"` branch. -/
def listAssetsEndpoint (filter : Option String) : String :=
  match filter with
  | some f => if f = "" then "/assets" else "/assets?filter=" ++ encodeURIComponent f
  | none => "/assets"

/-- `listAssets`: `GET /assets` with an optional percent-encoded filter. -/
def listAssets (apiKey : String) (filter : Option String) : Request :=
  request apiKey "GET" (listAssetsEndpoint filter) none "application/json"

/-- `getAsset`: `GET /assets/{id}.json` with the id percent-encoded. -/
def getAsset (apiKey : String) (assetId : String) : Request :=
  request apiKey "GET" ("/assets/" ++ encodeURIComponent assetId ++ ".json")
    none "application/json"

/-- `createAsset`: `POST /assets` with a form-encoded body. -/
def createAsset (apiKey : String) (params : CreateAssetParams) : Request :=
  request apiKey "POST" "/assets" (some (.obj (createAssetFields params)))
    "application/x-www-form-urlencoded"

/-- `updateAsset`: `PATCH /assets/{id}.json` with a JSON body (the default
content type). -/
def updateAsset (apiKey : String) (assetId : String) (params : UpdateAssetParams) : Request :=
  request apiKey "PATCH" ("/assets/" ++ encodeURIComponent assetId ++ ".json")
    (some (.obj (updateAssetFields params))) "application/json"

/-- `deleteAsset`: `DELETE /assets/{id}.json`, no body. -/
def deleteAsset (apiKey : String) (assetId : String) : Request :=
  request apiKey "DELETE" ("/assets/" ++ encodeURIComponent assetId ++ ".json")
    none "application/json"

/-- `getTranslations`: `GET /translations/{id}.json`, no body. -/
def getTranslations (apiKey : String) (assetId : String) : Request :=
  request apiKey "GET" ("/translations/" ++ encodeURIComponent assetId ++ ".json")
    none "application/json"

/-- `getTranslation`: `GET /translations/{id}/{locale}`, no body. -/
def getTranslation (apiKey : String) (assetId : String) (locale : String) : Request :=
  request apiKey "GET"
    ("/translations/" ++ encodeURIComponent assetId ++ "/" ++ encodeURIComponent locale)
    none "application/json"

/-- `updateTranslation`: `POST /translations/{id}/{locale}` with the raw
translation text as a `text/plain` body. -/
def updateTranslation (apiKey : String) (assetId : String) (locale : String)
    (text : String) : Request :=
  request apiKey "POST"
    ("/translations/" ++ encodeURIComponent assetId ++ "/" ++ encodeURIComponent locale)
    (some (.str text)) "text/plain"

/-- `listTags`: `GET /tags`, no body. -/
def listTags (apiKey : String) : Request :=
  request apiKey "GET" "/tags" none "application/json"

/-- `tagAsset`: `POST /assets/{id}/tags` with the form-encoded body
`name=<tag>`. -/
def tagAsset (apiKey : String) (assetId : String) (tag : String) : Request :=
  request apiKey "POST" ("/assets/" ++ encodeURIComponent assetId ++ "/tags")
    (some (.obj [("name", some tag)])) "application/x-www-form-urlencoded"

/-- `untagAsset`: `DELETE /assets/{id}/tags/{tag}.json`, no body. -/
def untagAsset (apiKey : String) (assetId : String) (tag : String) : Request :=
  request apiKey "DELETE"
    ("/assets/" ++ encodeURIComponent assetId ++ "/tags/" ++ encodeURIComponent tag ++ ".json")
    none "application/json"

end LocoClient

/-- One invocation of any client operation, with its parameters.  This
enumerates the complete operation surface of `LocoClient`. -/
inductive ClientCall where
  | getLocales
  | listAssets (filter : Option String)
  | getAsset (assetId : String)
  | createAsset (params : CreateAssetParams)
  | updateAsset (assetId : String) (params : UpdateAssetParams)
  | deleteAsset (assetId : String)
  | getTranslations (assetId : String)
  | getTranslation (assetId : String) (locale : String)
  | updateTranslation (assetId : String) (locale : String) (text : String)
  | listTags
  | tagAsset (assetId : String) (tag : String)
  | untagAsset (assetId : String) (tag : String)

/-- The request a `ClientCall` produces, given the API key the client was
constructed with. -/
def buildCall (apiKey : String) : ClientCall → Request
  | .getLocales => LocoClient.getLocales apiKey
  | .listAssets filter => LocoClient.listAssets apiKey filter
  | .getAsset assetId => LocoClient.getAsset apiKey assetId
  | .createAsset params => LocoClient.createAsset apiKey params
  | .updateAsset assetId params => LocoClient.updateAsset apiKey assetId params
  | .deleteAsset assetId => LocoClient.deleteAsset apiKey assetId
  | .getTranslations assetId => LocoClient.getTranslations apiKey assetId
  | .getTranslation assetId locale => LocoClient.getTranslation apiKey assetId locale
  | .updateTranslation assetId locale text =>
    LocoClient.updateTranslation apiKey assetId locale text
  | .listTags => LocoClient.listTags apiKey
  | .tagAsset assetId tag => LocoClient.tagAsset apiKey assetId tag
  | .untagAsset assetId tag => LocoClient.untagAsset apiKey assetId tag

/-! ## Tool-surface handlers (`src/index.ts`) -/

/-- The `create_asset` tool handler: its schema exposes `id`, `text`,
`context` and `notes` (no `type`), and it always calls
`client.createAsset` with `type: 'text'` hard-coded. -/
def createAssetTool (apiKey : String) (id text context notes : Option String) : Request :=
  LocoClient.createAsset apiKey
    { id := id, text := text, type := some AssetType.text, context := context, notes := notes }

/-- The `update_asset` tool handler: its schema exposes `newId`, `context`
and `notes` (no `type`), and it always calls `client.updateAsset` with
`type: 'text'` hard-coded. -/
def updateAssetTool (apiKey : String) (assetId : String)
    (newId context notes : Option String) : Request :=
  LocoClient.updateAsset apiKey assetId
    { id := newId, type := some AssetType.text, context := context, notes := notes }

/-! ## Response handling (`LocoClient.request`, response side) -/

/-- An HTTP response as seen by `request`: the status code and the body read
as text. -/
structure HttpResponse where
  status : Nat
  text : String
deriving DecidableEq, Repr

/-- `Response.ok` of the Fetch standard: status in the range 200–299. -/
def HttpResponse.ok (r : HttpResponse) : Bool :=
  200 ≤ r.status ∧ r.status < 300

/-- A successful decode: either the parsed structure or, when the body is not
parseable, the raw text verbatim. -/
inductive DecodeResult (J : Type) where
  | json (j : J)
  | raw (t : String)
deriving DecidableEq, Repr

/-- The response side of `LocoClient.request`: on a non-ok status throw
`Error` with the message built from the status and the body text; otherwise
try `JSON.parse` (abstracted as the `parse` argument) and fall back to the
raw text when parsing fails. -/
def handleResponse {J : Type} (parse : String → Option J) (r : HttpResponse) :
    Except String (DecodeResult J) :=
  if r.ok then
    match parse r.text with
    | some j => .ok (.json j)
    | none => .ok (.raw r.text)
  else
    .error ("Loco API error (" ++ toString r.status ++ "): " ++ r.text)

/-- Whether an `Except` result is an error. -/
def isErrorResult {J : Type} : Except String (DecodeResult J) → Bool
  | .error _ => true
  | .ok _ => false

/-! ## Round-trip of percent-encoding -/

/-- Validity of a character's scalar value, in arithmetic form. -/
theorem char_toNat_valid (c : Char) :
    c.toNat < 0xD800 ∨ (0xDFFF < c.toNat ∧ c.toNat < 0x110000) :=
  c.valid

/-- Every byte produced by the UTF-8 encoder is below 256. -/
theorem utf8Bytes_lt (c : Char) : ∀ b ∈ utf8Bytes c, b < 256 := by
  have hv := char_toNat_valid c
  intro b hb
  simp only [utf8Bytes] at hb
  split at hb
  · simp at hb; omega
  · split at hb
    · simp at hb; rcases hb with hb | hb <;> omega
    · split at hb
      · simp at hb; rcases hb with hb | hb | hb <;> omega
      · simp at hb; rcases hb with hb | hb | hb | hb <;> omega

/-- A hex digit emitted by `hexDigit` reads back to its value. -/
theorem hexVal_hexDigit (n : Nat) (h : n < 16) : hexVal (hexDigit n) = some n := by
  interval_cases n <;> decide

/-- Decoding consumes one `%XY` escape as the byte it encodes. -/
theorem pctDecodeBytes_pctByte (b : Nat) (hb : b < 256) (rest : List Char) :
    pctDecodeBytes (pctByte b ++ rest) = (pctDecodeBytes rest).map (b :: ·) := by
  have h1 : b / 16 < 16 := by omega
  have h2 : b % 16 < 16 := by omega
  have hbe : 16 * (b / 16) + b % 16 = b := by omega
  cases hrest : pctDecodeBytes rest with
  | none => simp [pctByte, pctDecodeBytes, hexVal_hexDigit _ h1, hexVal_hexDigit _ h2, hrest]
  | some bs =>
    simp [pctByte, pctDecodeBytes, hexVal_hexDigit _ h1, hexVal_hexDigit _ h2, hrest, hbe]

/-- Decoding consumes a run of escapes as the bytes they encode. -/
theorem pctDecodeBytes_pctEscapeBytes (bs : List Nat) (h : ∀ b ∈ bs, b < 256)
    (rest : List Char) :
    pctDecodeBytes (pctEscapeBytes bs ++ rest) = (pctDecodeBytes rest).map (bs ++ ·) := by
  induction bs with
  | nil => cases hrest : pctDecodeBytes rest <;> simp [pctEscapeBytes, hrest]
  | cons b bs ih =>
    have hb : b < 256 := h b (by simp)
    have hbs : ∀ x ∈ bs, x < 256 := fun x hx => h x (by simp [hx])
    simp only [pctEscapeBytes, List.append_assoc, pctDecodeBytes_pctByte b hb, ih hbs]
    cases hrest : pctDecodeBytes rest <;> simp

/-- An unescaped character of `encodeURIComponent` is ASCII and is not the
percent sign. -/
theorem isUriUnescaped_props (c : Char) (h : isUriUnescaped c = true) :
    c.toNat < 0x80 ∧ c ≠ '%' := by
  simp only [isUriUnescaped, decide_eq_true_eq] at h
  refine ⟨by omega, ?_⟩
  intro hc
  subst hc
  revert h
  decide

/-- Decoding consumes the encoding of one character as its UTF-8 bytes. -/
theorem pctDecodeBytes_encodeChar (c : Char) (rest : List Char) :
    pctDecodeBytes
      ((if isUriUnescaped c then [c] else pctEscapeBytes (utf8Bytes c)) ++ rest)
        = (pctDecodeBytes rest).map (utf8Bytes c ++ ·) := by
  by_cases hc : isUriUnescaped c
  · have hne : ¬(c = '%') := (isUriUnescaped_props c hc).2
    simp only [hc, if_true, List.cons_append, List.nil_append]
    rw [pctDecodeBytes.eq_def]
    simp only [hne, if_false]
    cases hrest : pctDecodeBytes rest with
    | none => simp [hrest]
    | some bs => simp [hrest]
  · simp only [hc, if_false]
    exact pctDecodeBytes_pctEscapeBytes _ (utf8Bytes_lt c) rest

/-- Percent-unescaping the output of `encodeURIComponent` yields exactly the
UTF-8 byte stream of the original character list. -/
theorem pctDecodeBytes_encode (l : List Char) :
    pctDecodeBytes (encodeURIComponentList l) = some (utf8EncodeList l) := by
  induction l with
  | nil => rfl
  | cons c cs ih =>
    simp [encodeURIComponentList, utf8EncodeList, pctDecodeBytes_encodeChar, ih]

/-- The decoding automaton consumes the UTF-8 bytes of one character and
emits exactly that character. -/
theorem utf8DecodeLoop_utf8Bytes (c : Char) (bs : List Nat) :
    utf8DecodeLoop none (utf8Bytes c ++ bs)
      = (utf8DecodeLoop none bs).map (fun l => c :: l) := by
  have hv := char_toNat_valid c
  have hofn : Char.ofNat c.toNat = c := Char.ofNat_toNat c
  by_cases h1 : c.toNat < 0x80
  · simp only [utf8Bytes, if_pos h1, List.cons_append, List.nil_append]
    rw [utf8DecodeLoop, if_pos h1, hofn]
  · by_cases h2 : c.toNat < 0x800
    · simp only [utf8Bytes, if_neg h1, if_pos h2, List.cons_append, List.nil_append]
      rw [utf8DecodeLoop, if_neg (by omega), if_neg (by omega), if_pos (by omega)]
      rw [utf8DecodeLoop, if_pos (by omega), if_pos (by omega), if_neg (by omega)]
      have harith : (0xC0 + c.toNat / 64 - 0xC0) * 64 + (0x80 + c.toNat % 64 - 0x80)
          = c.toNat := by omega
      rw [harith, hofn]
    · by_cases h3 : c.toNat < 0x10000
      · simp only [utf8Bytes, if_neg h1, if_neg h2, if_pos h3, List.cons_append, List.nil_append]
        rw [utf8DecodeLoop, if_neg (by omega), if_neg (by omega), if_neg (by omega),
          if_pos (by omega)]
        rw [utf8DecodeLoop, if_pos (by omega), if_neg (by omega)]
        rw [utf8DecodeLoop, if_pos (by omega), if_pos (by omega), if_neg (by omega)]
        have harith :
            ((0xE0 + c.toNat / 4096 - 0xE0) * 64 + (0x80 + (c.toNat / 64) % 64 - 0x80)) * 64 +
              (0x80 + c.toNat % 64 - 0x80) = c.toNat := by omega
        rw [harith, hofn]
      · simp only [utf8Bytes, if_neg h1, if_neg h2, if_neg h3, List.cons_append, List.nil_append]
        rw [utf8DecodeLoop, if_neg (by omega), if_neg (by omega), if_neg (by omega),
          if_neg (by omega), if_pos (by omega)]
        rw [utf8DecodeLoop, if_pos (by omega), if_neg (by omega)]
        rw [utf8DecodeLoop, if_pos (by omega), if_neg (by omega)]
        rw [utf8DecodeLoop, if_pos (by omega), if_pos (by omega), if_neg (by omega)]
        have harith :
            (((0xF0 + c.toNat / 262144 - 0xF0) * 64 + (0x80 + (c.toNat / 4096) % 64 - 0x80)) * 64 +
              (0x80 + (c.toNat / 64) % 64 - 0x80)) * 64 + (0x80 + c.toNat % 64 - 0x80)
                = c.toNat := by omega
        rw [harith, hofn]

/-- UTF-8 decoding inverts UTF-8 encoding of a character list. -/
theorem utf8Decode_utf8EncodeList (l : List Char) :
    utf8Decode (utf8EncodeList l) = some l := by
  induction l with
  | nil => rfl
  | cons c cs ih =>
    show utf8DecodeLoop none (utf8Bytes c ++ utf8EncodeList cs) = some (c :: cs)
    rw [utf8DecodeLoop_utf8Bytes]
    have ih' : utf8DecodeLoop none (utf8EncodeList cs) = some cs := ih
    rw [ih']
    rfl

/-- Round trip: `decodeURIComponent` inverts `encodeURIComponent` on every
string. -/
theorem decodeURIComponent_encodeURIComponent (s : String) :
    decodeURIComponent (encodeURIComponent s) = some s := by
  show (match pctDecodeBytes (encodeURIComponentList s.data) with
    | some bs =>
      match utf8Decode bs with
      | some l => some (String.mk l)
      | none => none
    | none => none) = some s
  rw [pctDecodeBytes_encode]
  simp [utf8Decode_utf8EncodeList]

/-! ## Claims -/

/-- C1: for every operation (all operations decode responses through
`handleResponse`), the operation fails with an error iff the HTTP status is
non-success, and in that case the error is exactly the message built from the
numeric status code and the unmodified response body text. -/
theorem claim_C1_nonsuccess_error {J : Type} (parse : String → Option J) (r : HttpResponse) :
    (isErrorResult (handleResponse parse r) = true ↔ r.ok = false) ∧
      (r.ok = false →
        handleResponse parse r
          = .error ("Loco API error (" ++ toString r.status ++ "): " ++ r.text)) := by
  constructor
  · cases h : r.ok with
    | true => cases hp : parse r.text <;> simp [handleResponse, h, hp, isErrorResult]
    | false => simp [handleResponse, h, isErrorResult]
  · intro h
    simp [handleResponse, h]

/-- Witness for C1 at status 404 with body "Not found". -/
theorem claim_C1_witness :
    isErrorResult (handleResponse (fun s => if s = "42" then some 42 else none)
        ⟨404, "Not found"⟩) = true ∧
      handleResponse (fun s => if s = "42" then some 42 else none) ⟨404, "Not found"⟩
        = .error "Loco API error (404): Not found" :=
  ⟨(claim_C1_nonsuccess_error _ _).1.mpr (by decide),
    ((claim_C1_nonsuccess_error (fun s => if s = "42" then some 42 else none)
      ⟨404, "Not found"⟩).2 (by decide)).trans (congrArg Except.error (by decide))⟩

/-- C3: the client provides a list-locales operation, `getLocales`, which
issues `GET /locales` with no body. -/
theorem claim_C3_get_locales (apiKey : String) :
    (buildCall apiKey ClientCall.getLocales).method = "GET" ∧
      (buildCall apiKey ClientCall.getLocales).url = BASE_URL ++ "/locales" ∧
      (buildCall apiKey ClientCall.getLocales).body = none :=
  ⟨rfl, rfl, rfl⟩

/-- C4: updating a translation to the empty string issues
`POST /translations/{id}/{locale}` with `Content-Type: text/plain` and a body
that is present and equal to the empty string (not an absent body and not a
JSON object). -/
theorem claim_C4_update_translation_empty (apiKey assetId locale : String) :
    (LocoClient.updateTranslation apiKey assetId locale "").method = "POST" ∧
      (LocoClient.updateTranslation apiKey assetId locale "").url
        = BASE_URL ++ ("/translations/" ++ encodeURIComponent assetId ++ "/"
            ++ encodeURIComponent locale) ∧
      ("Content-Type", "text/plain")
        ∈ (LocoClient.updateTranslation apiKey assetId locale "").headers ∧
      (LocoClient.updateTranslation apiKey assetId locale "").body = some "" := by
  refine ⟨rfl, rfl, ?_, rfl⟩
  simp [LocoClient.updateTranslation, LocoClient.request, contentTypeHeader]

/-- C5: on a successful response, if the body parses the operation returns
exactly the parsed structure, and if parsing fails it returns the raw body
text verbatim instead of failing. -/
theorem claim_C5_success_decoding {J : Type} (parse : String → Option J) (r : HttpResponse)
    (hok : r.ok = true) :
    (∀ j, parse r.text = some j → handleResponse parse r = .ok (.json j)) ∧
      (parse r.text = none → handleResponse parse r = .ok (.raw r.text)) := by
  constructor
  · intro j hj
    simp [handleResponse, hok, hj]
  · intro hn
    simp [handleResponse, hok, hn]

/-- Witness for C5: a parsing body yields the parsed value, a non-parsing
body yields the raw text. -/
theorem claim_C5_witness :
    handleResponse (fun s => if s = "42" then some 42 else none) ⟨200, "42"⟩
        = .ok (.json 42) ∧
      handleResponse (fun s => if s = "42" then some 42 else none) ⟨204, "OK"⟩
        = .ok (.raw "OK") :=
  ⟨(claim_C5_success_decoding _ _ (by decide)).1 42 (by decide),
    (claim_C5_success_decoding _ _ (by decide)).2 (by decide)⟩

/-- C6: every request built by any client operation carries
`Authorization: Loco <apiKey>` as its (first) header, for every API key and
every choice of parameters. -/
theorem claim_C6_authorization (apiKey : String) (call : ClientCall) :
    (buildCall apiKey call).headers.head? = some ("Authorization", "Loco " ++ apiKey)
      ∧ ("Authorization", "Loco " ++ apiKey) ∈ (buildCall apiKey call).headers := by
  cases call <;> exact ⟨rfl, by simp [buildCall, LocoClient.request,
    LocoClient.getLocales, LocoClient.listAssets, LocoClient.getAsset,
    LocoClient.createAsset, LocoClient.updateAsset, LocoClient.deleteAsset,
    LocoClient.getTranslations, LocoClient.getTranslation, LocoClient.updateTranslation,
    LocoClient.listTags, LocoClient.tagAsset, LocoClient.untagAsset]⟩

/-- C10: an explicit empty-string filter is treated exactly like an absent
filter: `listAssets` issues `GET /assets` with no filter query parameter. -/
theorem claim_C10_empty_filter (apiKey : String) :
    LocoClient.listAssets apiKey (some "") = LocoClient.listAssets apiKey none ∧
      (LocoClient.listAssets apiKey (some "")).url = BASE_URL ++ "/assets" :=
  ⟨rfl, rfl⟩

/-- C2 counterexample: with filter "onboarding,!draft" the adapter issues
`GET /assets?filter=onboarding%2C!draft` — `encodeURIComponent` leaves `!`
unescaped — and not `/assets?filter=onboarding%2C%21draft` as claimed. -/
theorem claim_C2_counterexample :
    (LocoClient.listAssets "key" (some "onboarding,!draft")).url
        = "https://localise.biz/api/assets?filter=onboarding%2C!draft" ∧
      (LocoClient.listAssets "key" (some "onboarding,!draft")).url
        ≠ "https://localise.biz/api/assets?filter=onboarding%2C%21draft" := by
  constructor <;> decide

/-- C2 amended: listing assets with filter "onboarding,!draft" issues
`GET /assets?filter=onboarding%2C!draft` (the comma is percent-encoded, the
exclamation mark is left literal), and percent-decoding the query value
reproduces the literal filter string. -/
theorem claim_C2_list_assets_filter (apiKey : String) :
    (LocoClient.listAssets apiKey (some "onboarding,!draft")).method = "GET" ∧
      (LocoClient.listAssets apiKey (some "onboarding,!draft")).url
        = BASE_URL ++ "/assets?filter=onboarding%2C!draft" ∧
      (LocoClient.listAssets apiKey (some "onboarding,!draft")).body = none ∧
      decodeURIComponent "onboarding%2C!draft" = some "onboarding,!draft" := by
  refine ⟨rfl, ?_, rfl, by decide⟩
  show BASE_URL ++ LocoClient.listAssetsEndpoint (some "onboarding,!draft") = _
  decide

/-- C7 counterexample: the create_asset tool handler takes no type argument
at all, yet invoking it with only text="Welcome" produces a form body that
carries `type=text`: a type value is sent although it was absent from the
invocation. -/
theorem claim_C7_counterexample :
    (createAssetTool "key" none (some "Welcome") none none).body
        = some "text=Welcome&type=text" ∧
      "type" ∈ (definedFields (BodyValue.obj (createAssetFields
        { id := none, text := some "Welcome", type := some AssetType.text,
          context := none, notes := none }))).map Prod.fst := by
  constructor <;> decide

/-- C7 amended: at the adapter level (`createAsset`/`updateAsset`), the body
contains a `type` key iff the type parameter is present, and every
representable type value lies in the closed enumeration text/html/xml; the
tool-surface handlers, however, hard-code `type: 'text'`, so every
tool-level create/update invocation sends `type=text` even though the tool
schema exposes no type parameter. -/
theorem claim_C7_type_field (p : CreateAssetParams) (q : UpdateAssetParams) :
    ("type" ∈ (definedFields (BodyValue.obj (createAssetFields p))).map Prod.fst
        ↔ p.type.isSome) ∧
      ("type" ∈ (definedFields (BodyValue.obj (updateAssetFields q))).map Prod.fst
        ↔ q.type.isSome) ∧
      (∀ t : AssetType, t.toStr = "text" ∨ t.toStr = "html" ∨ t.toStr = "xml") ∧
      (∀ id text context notes : Option String,
        ("type", "text") ∈ definedFields (BodyValue.obj (createAssetFields
          { id := id, text := text, type := some AssetType.text,
            context := context, notes := notes }))) ∧
      (∀ newId context notes : Option String,
        ("type", "text") ∈ definedFields (BodyValue.obj (updateAssetFields
          { id := newId, type := some AssetType.text,
            context := context, notes := notes }))) := by
  refine ⟨?_, ?_, ?_, ?_, ?_⟩
  · obtain ⟨i, t, ty, cx, nt⟩ := p
    cases i <;> cases t <;> cases ty <;> cases cx <;> cases nt <;>
      simp [createAssetFields, definedFields, AssetType.toStr]
  · obtain ⟨i, ty, cx, nt⟩ := q
    cases i <;> cases ty <;> cases cx <;> cases nt <;>
      simp [updateAssetFields, definedFields, AssetType.toStr]
  · intro t
    cases t <;> simp [AssetType.toStr]
  · intro i t cx nt
    cases i <;> cases t <;> cases cx <;> cases nt <;>
      simp [createAssetFields, definedFields, AssetType.toStr]
  · intro i cx nt
    cases i <;> cases cx <;> cases nt <;>
      simp [updateAssetFields, definedFields, AssetType.toStr]

/-- C8: every asset identifier (and locale and tag) is inserted into request
paths as its `encodeURIComponent` image, and percent-decoding that segment
reproduces the original string exactly — for every string, including those
containing `/`, space and `%`. -/
theorem claim_C8_segment_roundtrip (apiKey assetId locale tag : String) :
    decodeURIComponent (encodeURIComponent assetId) = some assetId ∧
      (LocoClient.getAsset apiKey assetId).url
        = BASE_URL ++ ("/assets/" ++ encodeURIComponent assetId ++ ".json") ∧
      (LocoClient.getTranslation apiKey assetId locale).url
        = BASE_URL ++ ("/translations/" ++ encodeURIComponent assetId ++ "/"
            ++ encodeURIComponent locale) ∧
      (LocoClient.untagAsset apiKey assetId tag).url
        = BASE_URL ++ ("/assets/" ++ encodeURIComponent assetId ++ "/tags/"
            ++ encodeURIComponent tag ++ ".json") ∧
      decodeURIComponent (encodeURIComponent locale) = some locale ∧
      decodeURIComponent (encodeURIComponent tag) = some tag :=
  ⟨decodeURIComponent_encodeURIComponent assetId, rfl, rfl, rfl,
    decodeURIComponent_encodeURIComponent locale,
    decodeURIComponent_encodeURIComponent tag⟩

/-- C9: creating an asset with only text="Welcome" issues `POST /assets`
with the form body exactly "text=Welcome" (no id key); in general each
optional create-asset field contributes a key to the form body iff it is
present. -/
theorem claim_C9_create_asset_body (apiKey : String) (p : CreateAssetParams) :
    (LocoClient.createAsset apiKey
        { id := none, text := some "Welcome", type := none,
          context := none, notes := none }).method = "POST" ∧
      (LocoClient.createAsset apiKey
        { id := none, text := some "Welcome", type := none,
          context := none, notes := none }).url = BASE_URL ++ "/assets" ∧
      (LocoClient.createAsset apiKey
        { id := none, text := some "Welcome", type := none,
          context := none, notes := none }).body = some "text=Welcome" ∧
      (("id" ∈ (definedFields (BodyValue.obj (createAssetFields p))).map Prod.fst
          ↔ p.id.isSome) ∧
        ("text" ∈ (definedFields (BodyValue.obj (createAssetFields p))).map Prod.fst
          ↔ p.text.isSome) ∧
        ("type" ∈ (definedFields (BodyValue.obj (createAssetFields p))).map Prod.fst
          ↔ p.type.isSome) ∧
        ("context" ∈ (definedFields (BodyValue.obj (createAssetFields p))).map Prod.fst
          ↔ p.context.isSome) ∧
        ("notes" ∈ (definedFields (BodyValue.obj (createAssetFields p))).map Prod.fst
          ↔ p.notes.isSome)) := by
  have hbody : serializeBody "application/x-www-form-urlencoded"
      (BodyValue.obj (createAssetFields
        { id := none, text := some "Welcome", type := none,
          context := none, notes := none })) = "text=Welcome" := by decide
  refine ⟨rfl, rfl, congrArg some hbody, ?_⟩
  obtain ⟨i, t, ty, cx, nt⟩ := p
  cases i <;> cases t <;> cases ty <;> cases cx <;> cases nt <;>
    simp [createAssetFields, definedFields]
